import Mathlib

/-!
Verification of the rest_weather core (weather service, preference store,
preference mutators) against its natural-language specification.

The Go source is shallowly embedded: pure helpers become Lean functions,
file I/O of the preference store becomes explicit state passing over an
abstract `Medium`, and the outbound HTTP calls of the weather side become
an environment parameter (`WireResult`) plus an explicit trace of the
network calls issued.  Floating-point coordinates are modelled by `Rat`:
the code never computes with them, it only passes them through and formats
them into a URL.
-/

/-- Decidable equality of `Except` results, for evaluating the embedded
operations on concrete inputs. -/
instance {ε α : Type} [DecidableEq ε] [DecidableEq α] : DecidableEq (Except ε α) := fun a b =>
  match a, b with
  | .error x, .error y =>
    if h : x = y then .isTrue (by rw [h]) else .isFalse (by intro hc; cases hc; exact h rfl)
  | .error _, .ok _ => .isFalse (by intro hc; cases hc)
  | .ok _, .error _ => .isFalse (by intro hc; cases hc)
  | .ok x, .ok y =>
    if h : x = y then .isTrue (by rw [h]) else .isFalse (by intro hc; cases hc; exact h rfl)

namespace RestWeather

/-- The `models.UserData` record: the persisted preference document
(`{"cities": [...], "units": "metric"|"imperial"}`). -/
structure UserData where
  cities : List String
  units : String
deriving DecidableEq, Repr

/-!
String primitives.  The Go code uses `strings.Split`, `strings.TrimSpace`,
`strings.EqualFold` and friends; they are modelled here by structurally
recursive functions over the character list of a `String`, so that every
operation evaluates by kernel reduction on concrete inputs.
-/

/-- Model of `strings.ToLower`, on the ASCII letters the service's city names and
unit names use (`Char.toLower` lowercases exactly `A`–`Z`). -/
def toLowerStr (s : String) : String :=
  String.mk (s.data.map Char.toLower)

/-- Model of `strings.EqualFold`: case-insensitive string comparison (simple case
folding, modelled by comparing lowercased character lists). -/
def eqFold (a b : String) : Bool :=
  a.data.map Char.toLower == b.data.map Char.toLower

/-- The whitespace recognized by `strings.TrimSpace` (the Latin-1 range of
`unicode.IsSpace`). -/
def isSpaceChar (c : Char) : Bool :=
  c == ' ' || c == '\t' || c == '\n' || c == '\r' ||
    c.toNat == 0xb || c.toNat == 0xc || c.toNat == 0x85 || c.toNat == 0xa0

/-- Model of `strings.TrimSpace`: drop whitespace from both ends. -/
def trimSpace (s : String) : String :=
  String.mk (((s.data.dropWhile isSpaceChar).reverse.dropWhile isSpaceChar).reverse)

/-- Whether `s` starts with the pattern `p`, over character lists. -/
def startsWithL : List Char → List Char → Bool
  | _, [] => true
  | [], _ :: _ => false
  | c :: cs, p :: ps => c == p && startsWithL cs ps

/-- Model of `strings.HasPrefix`. -/
def startsWithStr (s p : String) : Bool :=
  startsWithL s.data p.data

/-- Worker for `splitOnStr`: scan for the (non-empty) separator, emitting a
group at each occurrence.  One unit of fuel is spent per consumed character,
so any fuel of at least the input length is enough; the fuel-exhausted arm
is unreachable at the supplied fuel. -/
def splitGo (sep : List Char) : Nat → List Char → List Char → List (List Char)
  | 0, acc, s => [acc.reverse ++ s]
  | fuel + 1, acc, s =>
    match s with
    | [] => [acc.reverse]
    | c :: rest =>
      if startsWithL s sep then acc.reverse :: splitGo sep fuel [] (s.drop sep.length)
      else splitGo sep fuel (c :: acc) rest

/-- Model of `strings.Split` with a non-empty separator: every (non-overlapping)
occurrence of `sep` separates two groups; splitting the empty string gives
`[""]`. -/
def splitOnStr (s sep : String) : List String :=
  if sep.data.isEmpty then [s]
  else (splitGo sep.data (s.data.length + 1) [] s.data).map String.mk

/-- Model of `strings.Join`. -/
def intercalateStr (sep : String) : List String → String
  | [] => ""
  | [x] => x
  | x :: rest => x ++ sep ++ intercalateStr sep rest

/-- Drop the first `n` characters of a string. -/
def dropStr (s : String) (n : Nat) : String :=
  String.mk (s.data.drop n)

/-- Storage error kinds of `storage.Service` (`failed to open file`,
`failed to decode file`, `failed to create file` / `failed to save user data`). -/
inductive StorageErr where
  | openError
  | decodeError
  | writeError
deriving DecidableEq, Repr

/-- Content of the preference file: either bytes that decode as a
`UserData` document, or undecodable bytes. -/
inductive FileContent where
  | doc (d : UserData)
  | junk
deriving DecidableEq, Repr

/-- The persistence medium seen through `os.Open` / `os.Create`:
`avail c` is an openable medium whose file is `c` (`none` = absent),
`openBroken` is a medium whose file cannot be opened or created for a
reason other than absence. -/
inductive Medium where
  | avail (content : Option FileContent)
  | openBroken
deriving DecidableEq, Repr

/-- The default document written by `storage.Service.createDefaultUserData`:
empty city list, metric units. -/
def defaultUserData : UserData :=
  { cities := [], units := "metric" }

/-- Embedding of `storage.Service.createDefaultUserData`: writes the default document to
the medium and returns it; fails with a write error when the file cannot be
created. -/
def createDefaultUserData : Medium → Except StorageErr UserData × Medium
  | .avail _ => (.ok defaultUserData, .avail (some (.doc defaultUserData)))
  | .openBroken => (.error .writeError, .openBroken)

/-- Embedding of `storage.Service.LoadUserData`: open the file; if absent create the
default document; if present but undecodable fail with a decode error; if
the open fails for another reason fail with an open error. -/
def LoadUserData : Medium → Except StorageErr UserData × Medium
  | .avail none => createDefaultUserData (.avail none)
  | .avail (some (.doc d)) => (.ok d, .avail (some (.doc d)))
  | .avail (some .junk) => (.error .decodeError, .avail (some .junk))
  | .openBroken => (.error .openError, .openBroken)

/-- Embedding of `storage.Service.SaveUserData`: `os.Create` truncates/creates the file
and the document is encoded wholesale, replacing any previous content. -/
def SaveUserData (d : UserData) : Medium → Except StorageErr Unit × Medium
  | .avail _ => (.ok (), .avail (some (.doc d)))
  | .openBroken => (.error .writeError, .openBroken)

/-- Error kinds surfaced by the weather service (`ErrInvalidURL`,
`ErrNoResultsForCity`, `ErrCityRequired`, `ErrInvalidUnit`, transport and
decode failures, wrapped storage errors). -/
inductive WErr where
  | invalidURL
  | noResultsForCity
  | cityRequired
  | invalidUnit
  | transportError
  | requestBuildError
  | decodeError
  | storage (e : StorageErr)
deriving DecidableEq, Repr

/-- Storage operations performed by a mutator, in order: used to observe
which loads and saves a call issues. -/
inductive StorageOp where
  | load
  | save (d : UserData)
deriving DecidableEq, Repr

/-- The body of the `AddCity` loop over the comma-split pieces of the raw
input: trim each piece, skip empties, append exactly when no existing entry
matches case-insensitively. -/
def addCityFold (cities : List String) (pieces : List String) : List String :=
  pieces.foldl
    (fun cs piece =>
      let c := trimSpace piece
      if c = "" then cs
      else if cs.any (fun e => eqFold e c) then cs
      else cs ++ [c])
    cities

/-- Embedding of `weather.Service.AddCity`: reject empty input with `ErrCityRequired`,
else load the document, run the add loop over the comma-split pieces, save
the updated document wholesale and return it. -/
def AddCity (city : String) (m : Medium) :
    Except WErr UserData × Medium × List StorageOp :=
  if city = "" then (.error .cityRequired, m, [])
  else
    match LoadUserData m with
    | (.error e, m') => (.error (.storage e), m', [.load])
    | (.ok ud, m') =>
      let ud2 : UserData := { ud with cities := addCityFold ud.cities (splitOnStr city ",") }
      match SaveUserData ud2 m' with
      | (.error e, m'') => (.error (.storage e), m'', [.load, .save ud2])
      | (.ok _, m'') => (.ok ud2, m'', [.load, .save ud2])

/-- The inner loop of `DeleteCity`: remove the first entry matching `c`
case-insensitively (via the slice splice `append(cities[:i], cities[i+1:]...)`);
when no entry matches, the list is returned unchanged (the miss is only
logged). -/
def removeFirstMatch : List String → String → List String
  | [], _ => []
  | e :: rest, c => if eqFold e c then rest else e :: removeFirstMatch rest c

/-- The body of the `DeleteCity` loop over the comma-split pieces: trim,
skip empties, remove the first case-insensitive match of each candidate. -/
def deleteCityFold (cities : List String) (pieces : List String) : List String :=
  pieces.foldl
    (fun cs piece =>
      let c := trimSpace piece
      if c = "" then cs
      else removeFirstMatch cs c)
    cities

/-- Embedding of `weather.Service.DeleteCity`: reject empty input with `ErrCityRequired`,
else load, run the delete loop, save wholesale, and return the updated city
list (the handler encodes `userData.Cities`). -/
def DeleteCity (city : String) (m : Medium) :
    Except WErr (List String) × Medium × List StorageOp :=
  if city = "" then (.error .cityRequired, m, [])
  else
    match LoadUserData m with
    | (.error e, m') => (.error (.storage e), m', [.load])
    | (.ok ud, m') =>
      let ud2 : UserData := { ud with cities := deleteCityFold ud.cities (splitOnStr city ",") }
      match SaveUserData ud2 m' with
      | (.error e, m'') => (.error (.storage e), m'', [.load, .save ud2])
      | (.ok _, m'') => (.ok ud2.cities, m'', [.load, .save ud2])

/-- Embedding of `weather.Service.UpdateUserUnits`, after the request body has been
decoded to the candidate `units` string: reject anything other than exactly
`"metric"` or `"imperial"` with `ErrInvalidUnit` before touching storage;
otherwise load, overwrite only the units field, save, and return the new
value. -/
def UpdateUserUnits (units : String) (m : Medium) :
    Except WErr String × Medium × List StorageOp :=
  if units ≠ "metric" ∧ units ≠ "imperial" then (.error .invalidUnit, m, [])
  else
    match LoadUserData m with
    | (.error e, m') => (.error (.storage e), m', [.load])
    | (.ok ud, m') =>
      let ud2 : UserData := { ud with units := units }
      match SaveUserData ud2 m' with
      | (.error e, m'') => (.error (.storage e), m'', [.load, .save ud2])
      | (.ok _, m'') => (.ok units, m'', [.load, .save ud2])

/-- ASCII control characters, rejected anywhere in a URL by `net/url.Parse`. -/
def isCtl (c : Char) : Bool :=
  c.toNat < 0x20 || c.toNat == 0x7f

/-- Characters allowed in a URL scheme after the leading letter. -/
def isSchemeChar (c : Char) : Bool :=
  c.isAlphanum || c == '+' || c == '-' || c == '.'

/-- Parse failures of the modelled `net/url.Parse` (scheme and authority
handling; percent-escape validation is not modelled). -/
inductive URLParseErr where
  | ctlChar
  | missingScheme
  | badHost
  | badPort
  | colonInFirstSegment
deriving DecidableEq, Repr

/-- Split `s` at the first occurrence of `sep`: `(before, some after)`, or
`(s, none)` when `sep` does not occur. -/
def cutFirst (s sep : String) : String × Option String :=
  match splitOnStr s sep with
  | [] => (s, none)
  | [x] => (x, none)
  | x :: rest => (x, some (intercalateStr sep rest))

/-- Scan for the `scheme:` prefix: the remaining characters up to a colon,
all of them scheme characters.  `none` when a non-scheme character or the
end of the string is reached before a colon. -/
def schemeLoop : List Char → List Char → Option (String × String)
  | _, [] => none
  | acc, c :: rest =>
    if c == ':' then some (String.mk acc.reverse, String.mk rest)
    else if isSchemeChar c then schemeLoop (c :: acc) rest
    else none

/-- Model of the `getScheme` step of `net/url.Parse`: a scheme starts with a letter; a leading colon
is the `missing protocol scheme` error; a string with no scheme parses with
scheme `""` and is returned whole.  The scheme is lowercased. -/
def getScheme (raw : String) : Except URLParseErr (String × String) :=
  match raw.data with
  | [] => .ok ("", raw)
  | c :: _ =>
    if c == ':' then .error .missingScheme
    else if c.isAlpha then
      match schemeLoop [] raw.data with
      | some (sch, rest) => .ok (toLowerStr sch, rest)
      | none => .ok ("", raw)
    else .ok ("", raw)

/-- Split a character list at the LAST occurrence of `sep`:
`some (before, after)`, or `none` when `sep` does not occur. -/
def splitAtLast (sep : Char) : List Char → Option (List Char × List Char)
  | [] => none
  | c :: rest =>
    match splitAtLast sep rest with
    | some (pre, post) => some (c :: pre, post)
    | none => if c == sep then some ([], rest) else none

/-- Model of `validOptionalPort` from `net/url`: empty, or a colon followed only by
digits. -/
def validOptionalPort (port : String) : Bool :=
  match port.data with
  | [] => true
  | ':' :: ds => ds.all Char.isDigit
  | _ => false

/-- Model of `parseHost` from `net/url`, restricted to the structure `validateURL`
depends on: a bracketed IPv6 host needs its closing bracket and a valid
optional port after it; otherwise anything after the last colon must be a
valid port.  The host string (port included) is returned verbatim. -/
def parseHost (host : String) : Except URLParseErr String :=
  if startsWithStr host "[" then
    match splitAtLast ']' host.data with
    | none => .error .badHost
    | some (_, post) =>
      if validOptionalPort (String.mk post) then .ok host else .error .badPort
  else
    match splitAtLast ':' host.data with
    | none => .ok host
    | some (_, post) =>
      if validOptionalPort (String.mk (':' :: post)) then .ok host else .error .badPort

/-- Model of `parseAuthority` from `net/url`: userinfo is everything before the last
`@`, the host is what follows it. -/
def parseAuthority (authority : String) :
    Except URLParseErr (Option String × String) :=
  match splitAtLast '@' authority.data with
  | some (ui, hostCs) => do
    let host ← parseHost (String.mk hostCs)
    pure (some (String.mk ui), host)
  | none => do
    let host ← parseHost authority
    pure (none, host)

/-- The result of `net/url.Parse` restricted to the components this service
reads: scheme, authority presence, userinfo, host, and the raw remainder
(path, query, fragment). -/
structure GoURL where
  scheme : String
  hasAuthority : Bool
  userinfo : Option String
  host : String
  path : String
  query : Option String
  fragment : Option String
deriving DecidableEq, Repr

/-- Model of `net/url.Parse`: reject control characters; split the fragment at the
first `#` and the query at the first `?`; extract the scheme; a
`scheme:`-prefixed string whose remainder does not start with `/` is opaque
(no authority, empty host); a remainder starting with `//` carries an
authority of the form `userinfo@host` running to the next `/`. -/
def parseURL (raw : String) : Except URLParseErr GoURL := do
  if raw.data.any isCtl then
    throw .ctlChar
  let (beforeFrag, frag) := cutFirst raw "#"
  let (scheme, rest0) ← getScheme beforeFrag
  let (rest, query) := cutFirst rest0 "?"
  if ¬ startsWithStr rest "/" then
    if scheme ≠ "" then
      return { scheme, hasAuthority := false, userinfo := none, host := "",
               path := rest, query, fragment := frag }
    else if (cutFirst rest "/").1.data.any (fun c => c == ':') then
      throw .colonInFirstSegment
    else
      return { scheme := "", hasAuthority := false, userinfo := none, host := "",
               path := rest, query, fragment := frag }
  else if startsWithStr rest "//" ∧ (scheme ≠ "" ∨ ¬ startsWithStr rest "///") then
    let afterSlashes := dropStr rest 2
    let (authority, path) :=
      match cutFirst afterSlashes "/" with
      | (a, none) => (a, "")
      | (a, some p) => (a, "/" ++ p)
    let (userinfo, host) ← parseAuthority authority
    return { scheme, hasAuthority := true, userinfo, host, path, query, fragment := frag }
  else
    return { scheme, hasAuthority := false, userinfo := none, host := "",
             path := rest, query, fragment := frag }

/-- Model of `net/url.URL.String`, restricted to the modelled components: rebuild
`scheme:` + `//userinfo@host` + path + `?query` + `#fragment`. -/
def GoURL.toStr (u : GoURL) : String :=
  (if u.scheme ≠ "" then u.scheme ++ ":" else "")
    ++ (if u.hasAuthority then
          "//" ++ (match u.userinfo with | some ui => ui ++ "@" | none => "") ++ u.host
        else "")
    ++ u.path
    ++ (match u.query with | some q => "?" ++ q | none => "")
    ++ (match u.fragment with | some f => "#" ++ f | none => "")

/-- Embedding of `weather.Service.validateURL`: parse the URL; fail with `ErrInvalidURL`
when parsing fails, the scheme is not `https`, or the host is empty; on
success return the re-serialized URL.  Pure: no state or trace parameter. -/
def validateURL (rawURL : String) : Except WErr String :=
  match parseURL rawURL with
  | .error _ => .error .invalidURL
  | .ok u => if u.scheme ≠ "https" ∨ u.host = "" then .error .invalidURL else .ok u.toStr

/-- One outbound HTTP call as recorded in the call trace, by target URL. -/
inductive NetCall where
  | call (url : String)
deriving DecidableEq, Repr

/-- Outcome of one outbound HTTP exchange as supplied by the environment:
the transport fails (deadline expiry included), or it succeeds with a body
that either decodes into the target schema (`ok (some b)`) or does not
(`ok none`). -/
inductive WireResult (β : Type) where
  | transportFail
  | ok (decoded : Option β)
deriving DecidableEq, Repr

/-- Embedding of `weather.Service.doRequest`: validate the URL first and fail fast with
`ErrInvalidURL`, issuing no request; otherwise issue one request to the
validated URL (recorded in the trace) whose outcome the environment
supplies. -/
def doRequest {β : Type} (rawURL : String) (wire : WireResult β) :
    Except WErr (Option β) × List NetCall :=
  match validateURL rawURL with
  | .error _ => (.error .invalidURL, [])
  | .ok v =>
    match wire with
    | .transportFail => (.error .transportError, [.call v])
    | .ok body => (.ok body, [.call v])

/-- Character class of `url.QueryEscape`: alphanumerics and `-_.~` kept, space becomes `+`,
every other character is percent-encoded byte-by-byte in UTF-8. -/
def isQueryUnreserved (c : Char) : Bool :=
  c.isAlphanum || c == '-' || c == '_' || c == '.' || c == '~'

/-- Upper-case hexadecimal digit for `n < 16`. -/
def hexDigit (n : Nat) : Char :=
  if n < 10 then Char.ofNat (48 + n) else Char.ofNat (55 + n)

/-- UTF-8 encoding of a code point as a byte list. -/
def utf8Bytes (n : Nat) : List Nat :=
  if n < 0x80 then [n]
  else if n < 0x800 then [0xC0 + n / 0x40, 0x80 + n % 0x40]
  else if n < 0x10000 then
    [0xE0 + n / 0x1000, 0x80 + (n / 0x40) % 0x40, 0x80 + n % 0x40]
  else
    [0xF0 + n / 0x40000, 0x80 + (n / 0x1000) % 0x40, 0x80 + (n / 0x40) % 0x40,
     0x80 + n % 0x40]

/-- Model of `url.QueryEscape`. -/
def queryEscape (s : String) : String :=
  s.data.foldl
    (fun acc c =>
      if isQueryUnreserved c then acc.push c
      else if c == ' ' then acc.push '+'
      else (utf8Bytes c.toNat).foldl
        (fun a b => ((a.push '%').push (hexDigit (b / 16))).push (hexDigit (b % 16)))
        acc)
    ""

/-- Model of `fmt.Sprintf` with a single `%s` verb, as used for the geocode URL
template: the first `%s` is replaced by the argument (the configured
templates hold exactly one placeholder). -/
def sprintf1 (tmpl arg : String) : String :=
  match splitOnStr tmpl "%s" with
  | [] => tmpl
  | [t] => t
  | t :: rest => t ++ arg ++ intercalateStr "%s" rest

/-- Model of `fmt.Sprintf` with two `%f` verbs, as used for the weather URL
templates: the first `%f` is replaced by the first argument, the second by
the second. -/
def sprintf2 (tmpl a b : String) : String :=
  match splitOnStr tmpl "%f" with
  | t0 :: t1 :: rest => t0 ++ a ++ t1 ++ b ++ intercalateStr "%f" rest
  | parts => intercalateStr "%f" parts

/-- The `%f` rendering of a coordinate: sign, integer part, six fractional
digits.  `|q| * 10^6` is rounded to the nearest integer by integer
arithmetic (`⌊(2·|num|·10^6 + den) / (2·den)⌋`); the tie-breaking direction
of Go's rendering is immaterial to every property proved here. -/
def fmtFloat (q : Rat) : String :=
  let n : Nat := (2 * q.num.natAbs * 1000000 + q.den) / (2 * q.den)
  let fracDigits := Nat.repr (n % 1000000)
  (if q.num < 0 then "-" else "")
    ++ Nat.repr (n / 1000000) ++ "."
    ++ String.mk (List.replicate (6 - fracDigits.length) '0') ++ fracDigits

/-- Embedding of `weather.Service.getGeocode`: build the geocode URL from the template
and the query-escaped city, issue the request, and decode: a body that
fails to decode or decodes to an empty result list is `ErrNoResultsForCity`;
otherwise the first entry's (latitude, longitude) is returned. -/
def getGeocode (geocodeAPIURL : String) (wire : WireResult (List (Rat × Rat)))
    (city : String) : Except WErr (Rat × Rat) × List NetCall :=
  let geoURL := sprintf1 geocodeAPIURL (queryEscape city)
  match doRequest geoURL wire with
  | (.error e, tr) => (.error e, tr)
  | (.ok none, tr) => (.error .noResultsForCity, tr)
  | (.ok (some []), tr) => (.error .noResultsForCity, tr)
  | (.ok (some (r :: _)), tr) => (.ok r, tr)

/-- Embedding of `weather.Service.getWeatherData`: fail with `ErrCityRequired` for the
empty city before anything else; otherwise resolve the geocode, format the
weather URL template with (latitude, longitude) in that order, issue the
request, and decode into the target schema (`DecodeError` on a body that
does not decode). -/
def getWeatherData {β : Type} (geocodeAPIURL weatherAPIURL : String)
    (geoWire : WireResult (List (Rat × Rat))) (wWire : WireResult β)
    (city : String) : Except WErr β × List NetCall :=
  if city = "" then (.error .cityRequired, [])
  else
    match getGeocode geocodeAPIURL geoWire city with
    | (.error e, tr) => (.error e, tr)
    | (.ok (lat, lon), tr) =>
      let weatherURL := sprintf2 weatherAPIURL (fmtFloat lat) (fmtFloat lon)
      match doRequest weatherURL wWire with
      | (.error e, tr2) => (.error e, tr ++ tr2)
      | (.ok none, tr2) => (.error .decodeError, tr ++ tr2)
      | (.ok (some b), tr2) => (.ok b, tr ++ tr2)

/-- The `CurrentWeatherResponse` schema: temperature and wind speed. -/
structure CurrentWeather where
  temperature : Rat
  windspeed : Rat
deriving DecidableEq, Repr

/-- The `ForecastResponse` schema: parallel date / max-temp / min-temp sequences. -/
structure Forecast where
  dates : List String
  maxTemps : List Rat
  minTemps : List Rat
deriving DecidableEq, Repr

/-- The URL-template configuration of `weather.Service`. -/
structure WeatherConfig where
  currentWeatherAPIURL : String
  forecastWeatherAPIURL : String
  geocodeAPIURL : String

/-- Embedding of `weather.Service.GetCurrentWeatherByCity`: the generic fetch with the
current-weather template and schema. -/
def GetCurrentWeatherByCity (cfg : WeatherConfig)
    (geoWire : WireResult (List (Rat × Rat))) (wWire : WireResult CurrentWeather)
    (city : String) : Except WErr CurrentWeather × List NetCall :=
  getWeatherData cfg.geocodeAPIURL cfg.currentWeatherAPIURL geoWire wWire city

/-- Embedding of `weather.Service.GetForecastByCity`: the generic fetch with the
forecast template and schema. -/
def GetForecastByCity (cfg : WeatherConfig)
    (geoWire : WireResult (List (Rat × Rat))) (wWire : WireResult Forecast)
    (city : String) : Except WErr Forecast × List NetCall :=
  getWeatherData cfg.geocodeAPIURL cfg.forecastWeatherAPIURL geoWire wWire city

/-!
Spec-side definitions.  These follow the specification's words ("splits the
raw string on commas, trims surrounding whitespace from each piece,
discards pieces that are empty after trimming, ..."), to be compared with
the loop embeddings taken from the source.
-/

/-- Spec-side: the candidate list of a raw input — split on commas, trim
each piece, discard pieces that are empty after trimming. -/
def specCandidates (raw : String) : List String :=
  ((splitOnStr raw ",").map trimSpace).filter (fun c => c != "")

/-- Spec-side: append a candidate verbatim exactly when no existing entry
equals it under case-insensitive comparison. -/
def specInsert (cs : List String) (c : String) : List String :=
  if cs.any (fun e => eqFold e c) then cs else cs ++ [c]

/-- Spec-side `AddCities` on the city list. -/
def specAddCities (cities : List String) (raw : String) : List String :=
  (specCandidates raw).foldl specInsert cities

/-- Spec-side `DeleteCities` on the city list: for each candidate remove
the first case-insensitive match. -/
def specDeleteCities (cities : List String) (raw : String) : List String :=
  (specCandidates raw).foldl removeFirstMatch cities

/-- The preference-document invariant: no two cities are equal under
case-insensitive comparison, and the units value is one of the two
enumerated values. -/
def Inv (ud : UserData) : Prop :=
  ud.cities.Pairwise (fun a b => eqFold a b = false) ∧
    (ud.units = "metric" ∨ ud.units = "imperial")

/-- The `AddCity` loop from the source agrees with the spec-side
trim-discard-insert fold. -/
theorem addCityFold_eq_spec (pieces : List String) (cities : List String) :
    addCityFold cities pieces =
      ((pieces.map trimSpace).filter (fun c => c != "")).foldl specInsert cities := by
  induction pieces generalizing cities with
  | nil => rfl
  | cons p ps ih =>
    simp only [addCityFold, List.foldl_cons, List.map_cons, List.filter_cons]
    by_cases hp : trimSpace p = ""
    · simpa [hp, addCityFold] using ih cities
    · simpa [hp, addCityFold, specInsert] using ih (specInsert cities (trimSpace p))

/-- Inserting candidates that all already have a case-insensitive match
leaves the list unchanged. -/
theorem foldl_specInsert_of_all_present (cands : List String) (cs : List String)
    (h : ∀ c ∈ cands, cs.any (fun e => eqFold e c) = true) :
    cands.foldl specInsert cs = cs := by
  induction cands with
  | nil => rfl
  | cons c cands ih =>
    have hc := h c (List.mem_cons_self c cands)
    simp only [List.foldl_cons, specInsert, hc, if_pos]
    exact ih fun c' hc' => h c' (List.mem_cons_of_mem c hc')

/-- The `DeleteCity` loop from the source agrees with the spec-side
trim-discard-remove fold. -/
theorem deleteCityFold_eq_spec (pieces : List String) (cities : List String) :
    deleteCityFold cities pieces =
      ((pieces.map trimSpace).filter (fun c => c != "")).foldl removeFirstMatch cities := by
  induction pieces generalizing cities with
  | nil => rfl
  | cons p ps ih =>
    simp only [deleteCityFold, List.foldl_cons, List.map_cons, List.filter_cons]
    by_cases hp : trimSpace p = ""
    · simpa [hp, deleteCityFold] using ih cities
    · simpa [hp, deleteCityFold] using ih (removeFirstMatch cities (trimSpace p))

/-- A candidate with no case-insensitive match removes nothing. -/
theorem removeFirstMatch_of_absent (cs : List String) (c : String)
    (h : ∀ e ∈ cs, eqFold e c = false) : removeFirstMatch cs c = cs := by
  induction cs with
  | nil => rfl
  | cons e rest ih =>
    have he := h e (List.mem_cons_self e rest)
    simp only [removeFirstMatch, he, Bool.false_eq_true, if_neg, ite_false]
    rw [ih fun e' h' => h e' (List.mem_cons_of_mem e h')]

/-- Removing a present candidate removes exactly the first
case-insensitive match, keeping every other entry in relative order. -/
theorem removeFirstMatch_first (pre : List String) (x : String) (suf : List String)
    (c : String) (hpre : ∀ e ∈ pre, eqFold e c = false) (hx : eqFold x c = true) :
    removeFirstMatch (pre ++ x :: suf) c = pre ++ suf := by
  induction pre with
  | nil => simp [removeFirstMatch, hx]
  | cons e rest ih =>
    have he := hpre e (List.mem_cons_self e rest)
    simp only [List.cons_append, removeFirstMatch, he, Bool.false_eq_true, ite_false,
      List.append_eq]
    rw [ih fun e' h' => hpre e' (List.mem_cons_of_mem e h')]

/-- Deleting candidates none of which matches any entry leaves the list
unchanged. -/
theorem foldl_removeFirstMatch_of_absent (cands : List String) (cs : List String)
    (h : ∀ c ∈ cands, ∀ e ∈ cs, eqFold e c = false) :
    cands.foldl removeFirstMatch cs = cs := by
  induction cands with
  | nil => rfl
  | cons c cands ih =>
    simp only [List.foldl_cons,
      removeFirstMatch_of_absent cs c (h c (List.mem_cons_self c cands))]
    exact ih fun c' hc' => h c' (List.mem_cons_of_mem c hc')

/-- Removal only ever drops entries. -/
theorem removeFirstMatch_sublist (cs : List String) (c : String) :
    List.Sublist (removeFirstMatch cs c) cs := by
  induction cs with
  | nil => exact List.Sublist.refl []
  | cons e rest ih =>
    simp only [removeFirstMatch]
    by_cases h : eqFold e c
    · simp only [h, ite_true]
      exact List.sublist_cons_self e rest
    · simp only [h, Bool.false_eq_true, ite_false]
      exact ih.cons₂ e

/-- The delete fold only ever drops entries. -/
theorem foldl_removeFirstMatch_sublist (cands : List String) (cs : List String) :
    List.Sublist (cands.foldl removeFirstMatch cs) cs := by
  induction cands generalizing cs with
  | nil => exact List.Sublist.refl cs
  | cons c cands ih =>
    exact (ih (removeFirstMatch cs c)).trans (removeFirstMatch_sublist cs c)

/-- The insert fold preserves case-insensitive freedom from duplicates. -/
theorem pairwise_foldl_specInsert (cands : List String) (cs : List String)
    (h : cs.Pairwise fun a b => eqFold a b = false) :
    (cands.foldl specInsert cs).Pairwise fun a b => eqFold a b = false := by
  induction cands generalizing cs with
  | nil => exact h
  | cons c cands ih =>
    refine ih (specInsert cs c) ?_
    unfold specInsert
    by_cases hc : cs.any (fun e => eqFold e c) = true
    · simpa [hc]
    · have habs : ∀ e ∈ cs, eqFold e c = false := by
        intro e he
        by_contra hne
        exact hc (List.any_eq_true.2 ⟨e, he, by simpa using hne⟩)
      rw [if_neg hc, List.pairwise_append]
      refine ⟨h, List.pairwise_singleton _ _, ?_⟩
      intro a ha b hb
      rw [List.mem_singleton] at hb
      subst hb
      exact habs a ha

/-- A successful load pins down the medium's behavior: the returned
document is the stored one and the post-load medium stores it (the absent
case stores the freshly created default). -/
theorem loadUserData_ok_cases (m : Medium) (ud : UserData)
    (h : (LoadUserData m).1 = .ok ud) :
    LoadUserData m = (.ok ud, .avail (some (.doc ud))) := by
  cases m with
  | avail content =>
    match content with
    | none =>
      simp only [LoadUserData, createDefaultUserData] at h ⊢
      cases h
      rfl
    | some (.doc d) =>
      simp only [LoadUserData] at h ⊢
      cases h
      rfl
    | some .junk => simp [LoadUserData] at h
  | openBroken => simp [LoadUserData] at h

/-- Behavior of `AddCity` on a loadable medium and non-empty input: load succeeds, the
add loop runs, and the updated document is saved and returned. -/
theorem addCity_eq (raw : String) (m : Medium) (ud : UserData)
    (hraw : raw ≠ "") (h : (LoadUserData m).1 = .ok ud) :
    AddCity raw m =
      (.ok { ud with cities := addCityFold ud.cities (splitOnStr raw ",") },
       .avail (some (.doc { ud with cities := addCityFold ud.cities (splitOnStr raw ",") })),
       [.load, .save { ud with cities := addCityFold ud.cities (splitOnStr raw ",") }]) := by
  rw [AddCity, if_neg hraw, loadUserData_ok_cases m ud h]
  rfl

/-- Behavior of `DeleteCity` on a loadable medium and non-empty input: load succeeds,
the delete loop runs, and the updated document is saved; the updated city
list is returned. -/
theorem deleteCity_eq (raw : String) (m : Medium) (ud : UserData)
    (hraw : raw ≠ "") (h : (LoadUserData m).1 = .ok ud) :
    DeleteCity raw m =
      (.ok (deleteCityFold ud.cities (splitOnStr raw ",")),
       .avail (some (.doc { ud with cities := deleteCityFold ud.cities (splitOnStr raw ",") })),
       [.load, .save { ud with cities := deleteCityFold ud.cities (splitOnStr raw ",") }]) := by
  rw [DeleteCity, if_neg hraw, loadUserData_ok_cases m ud h]
  rfl

/-- Behavior of `UpdateUserUnits` with a valid unit on a loadable medium: load
succeeds, only the units field is overwritten, the document is saved, and
the new unit value is returned. -/
theorem updateUnits_eq_valid (c : String) (m : Medium) (ud : UserData)
    (hc : c = "metric" ∨ c = "imperial") (h : (LoadUserData m).1 = .ok ud) :
    UpdateUserUnits c m =
      (.ok c, .avail (some (.doc { ud with units := c })),
       [.load, .save { ud with units := c }]) := by
  have hcond : ¬(c ≠ "metric" ∧ c ≠ "imperial") := by
    rcases hc with hc | hc <;> simp [hc]
  rw [UpdateUserUnits, if_neg hcond, loadUserData_ok_cases m ud h]
  rfl

/-- C1: for every preference document and non-empty raw input, `AddCities`
splits the raw string on commas, trims each piece, discards empties, and
appends each remaining candidate verbatim (original case) to the end of the
cities list exactly when no existing entry equals it case-insensitively;
when every candidate already has a case-insensitive match the cities list
is unchanged and the operation still succeeds. -/
theorem addCities_appends_only_new (m : Medium) (ud : UserData) (raw : String)
    (hraw : raw ≠ "") (hload : (LoadUserData m).1 = .ok ud) :
    (AddCity raw m).1 = .ok { cities := specAddCities ud.cities raw, units := ud.units } ∧
    ((∀ c ∈ specCandidates raw, ud.cities.any (fun e => eqFold e c) = true) →
      (AddCity raw m).1 = .ok ud) := by
  have h := addCity_eq raw m ud hraw hload
  have hfold : addCityFold ud.cities (splitOnStr raw ",") = specAddCities ud.cities raw := by
    rw [addCityFold_eq_spec]
    rfl
  constructor
  · rw [h]
    simp only [hfold]
  · intro hall
    rw [h]
    simp only [hfold, specAddCities, foldl_specInsert_of_all_present _ _ hall]

/-- C1 witness: on the stored document `{cities := ["Halifax"]}`, adding
`"halifax, Berlin"` skips the case-insensitive duplicate and appends
`"Berlin"` verbatim. -/
theorem addCities_appends_only_new_witness :
    (AddCity "halifax, Berlin"
        (.avail (some (.doc { cities := ["Halifax"], units := "metric" })))).1 =
      .ok { cities := specAddCities ["Halifax"] "halifax, Berlin", units := "metric" } :=
  (addCities_appends_only_new
    (.avail (some (.doc { cities := ["Halifax"], units := "metric" })))
    { cities := ["Halifax"], units := "metric" }
    "halifax, Berlin" (by decide) (by decide)).1

/-- C2: for every preference document and non-empty raw input,
`DeleteCities` splits on commas and trims, and each non-empty candidate
removes exactly the first case-insensitively matching entry, keeping all
other entries in relative order; a candidate with no match causes no error
and leaves the list unchanged. -/
theorem deleteCities_removes_first_match (m : Medium) (ud : UserData) (raw : String)
    (hraw : raw ≠ "") (hload : (LoadUserData m).1 = .ok ud) :
    (DeleteCity raw m).1 = .ok (specDeleteCities ud.cities raw) ∧
    (∀ (pre suf : List String) (x c : String),
      (∀ e ∈ pre, eqFold e c = false) → eqFold x c = true →
        removeFirstMatch (pre ++ x :: suf) c = pre ++ suf) ∧
    (∀ (cs : List String) (c : String),
      (∀ e ∈ cs, eqFold e c = false) → removeFirstMatch cs c = cs) ∧
    ((∀ c ∈ specCandidates raw, ∀ e ∈ ud.cities, eqFold e c = false) →
      (DeleteCity raw m).1 = .ok ud.cities) := by
  have h := deleteCity_eq raw m ud hraw hload
  have hfold : deleteCityFold ud.cities (splitOnStr raw ",") = specDeleteCities ud.cities raw := by
    rw [deleteCityFold_eq_spec]
    rfl
  refine ⟨?_, ?_, ?_, ?_⟩
  · rw [h]
    simp only [hfold]
  · exact fun pre suf x c hpre hx => removeFirstMatch_first pre x suf c hpre hx
  · exact fun cs c habs => removeFirstMatch_of_absent cs c habs
  · intro habs
    rw [h]
    simp only [hfold, specDeleteCities, foldl_removeFirstMatch_of_absent _ _ habs]

/-- C2 witness: on the stored document `{cities := ["Halifax", "Berlin"]}`,
deleting `"berlin"` removes exactly the case-insensitive match. -/
theorem deleteCities_removes_first_match_witness :
    (DeleteCity "berlin"
        (.avail (some (.doc { cities := ["Halifax", "Berlin"], units := "metric" })))).1 =
      .ok (specDeleteCities ["Halifax", "Berlin"] "berlin") :=
  (deleteCities_removes_first_match
    (.avail (some (.doc { cities := ["Halifax", "Berlin"], units := "metric" })))
    { cities := ["Halifax", "Berlin"], units := "metric" }
    "berlin" (by decide) (by decide)).1

/-- C3: `UpdateUnits` with any candidate other than exactly `"metric"` or
`"imperial"` fails with `InvalidUnit` and performs no load and no save (the
medium is untouched); with a valid candidate it loads, overwrites only the
units field, saves, and returns the new unit value. -/
theorem updateUnits_validates_before_storage (c : String) (m : Medium) :
    ((c ≠ "metric" ∧ c ≠ "imperial") →
      UpdateUserUnits c m = (.error .invalidUnit, m, [])) ∧
    (∀ ud, (c = "metric" ∨ c = "imperial") → (LoadUserData m).1 = .ok ud →
      UpdateUserUnits c m =
        (.ok c, .avail (some (.doc { cities := ud.cities, units := c })),
         [.load, .save { cities := ud.cities, units := c }])) := by
  constructor
  · intro hc
    rw [UpdateUserUnits, if_pos hc]
  · intro ud hc hload
    exact updateUnits_eq_valid c m ud hc hload

/-- C3 witness: `"celsius"` is rejected without touching the medium, and
`"imperial"` is stored. -/
theorem updateUnits_validates_before_storage_witness :
    UpdateUserUnits "celsius" (.avail (some (.doc { cities := [], units := "metric" }))) =
      (.error .invalidUnit, .avail (some (.doc { cities := [], units := "metric" })), []) ∧
    UpdateUserUnits "imperial" (.avail (some (.doc { cities := [], units := "metric" }))) =
      (.ok "imperial", .avail (some (.doc { cities := [], units := "imperial" })),
       [.load, .save { cities := [], units := "imperial" }]) :=
  ⟨(updateUnits_validates_before_storage "celsius"
      (.avail (some (.doc { cities := [], units := "metric" })))).1 (by decide),
   (updateUnits_validates_before_storage "imperial"
      (.avail (some (.doc { cities := [], units := "metric" })))).2
     { cities := [], units := "metric" } (Or.inr rfl) (by decide)⟩

/-- C4: every document saved by `AddCities`, `DeleteCities` or
`UpdateUnits` preserves the invariants: starting from a loaded document
with no case-insensitive duplicate cities and enumerated units, every
document appearing in a save operation also has no case-insensitive
duplicates and units equal to `"metric"` or `"imperial"`. -/
theorem mutators_preserve_invariant (m : Medium) (ud : UserData)
    (hload : (LoadUserData m).1 = .ok ud) (hinv : Inv ud) :
    (∀ raw d, StorageOp.save d ∈ (AddCity raw m).2.2 → Inv d) ∧
    (∀ raw d, StorageOp.save d ∈ (DeleteCity raw m).2.2 → Inv d) ∧
    (∀ c d, StorageOp.save d ∈ (UpdateUserUnits c m).2.2 → Inv d) := by
  obtain ⟨hpw, hunits⟩ := hinv
  refine ⟨?_, ?_, ?_⟩
  · intro raw d hd
    by_cases hraw : raw = ""
    · rw [hraw] at hd
      simp [AddCity] at hd
    · rw [addCity_eq raw m ud hraw hload] at hd
      simp only [List.mem_cons, List.not_mem_nil, or_false] at hd
      rcases hd with hd | hd
      · exact absurd hd (by simp)
      · have hd2 : d = { ud with cities := addCityFold ud.cities (splitOnStr raw ",") } := by
          injection hd
        subst hd2
        refine ⟨?_, hunits⟩
        rw [addCityFold_eq_spec]
        exact pairwise_foldl_specInsert _ _ hpw
  · intro raw d hd
    by_cases hraw : raw = ""
    · rw [hraw] at hd
      simp [DeleteCity] at hd
    · rw [deleteCity_eq raw m ud hraw hload] at hd
      simp only [List.mem_cons, List.not_mem_nil, or_false] at hd
      rcases hd with hd | hd
      · exact absurd hd (by simp)
      · have hd2 : d = { ud with cities := deleteCityFold ud.cities (splitOnStr raw ",") } := by
          injection hd
        subst hd2
        refine ⟨?_, hunits⟩
        rw [deleteCityFold_eq_spec]
        exact List.Pairwise.sublist (foldl_removeFirstMatch_sublist _ _) hpw
  · intro c d hd
    by_cases hc : c ≠ "metric" ∧ c ≠ "imperial"
    · rw [UpdateUserUnits, if_pos hc] at hd
      simp at hd
    · have hc2 : c = "metric" ∨ c = "imperial" := by
        by_contra hn
        push_neg at hn
        exact hc hn
      rw [updateUnits_eq_valid c m ud hc2 hload] at hd
      simp only [List.mem_cons, List.not_mem_nil, or_false] at hd
      rcases hd with hd | hd
      · exact absurd hd (by simp)
      · have hd2 : d = { ud with units := c } := by
          injection hd
        subst hd2
        exact ⟨hpw, hc2⟩

/-- C4 witness: on the invariant-satisfying document
`{cities := ["Halifax"], units := "metric"}`, the documents saved by an
add, a delete and a units update all satisfy the invariant. -/
theorem mutators_preserve_invariant_witness :
    Inv { cities := ["Halifax", "Berlin"], units := "metric" } ∧
    Inv { cities := [], units := "metric" } ∧
    Inv { cities := ["Halifax"], units := "imperial" } := by
  have h := mutators_preserve_invariant
    (.avail (some (.doc { cities := ["Halifax"], units := "metric" })))
    { cities := ["Halifax"], units := "metric" }
    (by decide) ⟨by decide, Or.inl rfl⟩
  refine ⟨h.1 "Berlin" _ ?_, h.2.1 "halifax" _ ?_, h.2.2 "imperial" _ ?_⟩
  · decide
  · decide
  · decide

/-- C5: saving a preference document and then loading returns a document
equal to the one saved — same cities in the same order, same units. -/
theorem save_then_load_roundtrip (d : UserData) (m : Medium)
    (h : (SaveUserData d m).1 = .ok ()) :
    (LoadUserData (SaveUserData d m).2).1 = .ok d := by
  cases m with
  | avail c => rfl
  | openBroken => simp [SaveUserData] at h

/-- C5 witness: round-tripping `{cities := ["Halifax"], units := "imperial"}`
through save and load returns it unchanged. -/
theorem save_then_load_roundtrip_witness :
    (LoadUserData
        (SaveUserData { cities := ["Halifax"], units := "imperial" } (.avail none)).2).1 =
      .ok { cities := ["Halifax"], units := "imperial" } :=
  save_then_load_roundtrip { cities := ["Halifax"], units := "imperial" }
    (.avail none) (by decide)

/-- C6: loading from an absent file creates and returns the default
document (empty cities, metric units) and persists it; an undecodable file
fails with the decode error; a medium that cannot be opened for another
reason fails with the open error. -/
theorem load_default_and_errors :
    LoadUserData (.avail none) =
      (.ok defaultUserData, .avail (some (.doc defaultUserData))) ∧
    defaultUserData = { cities := [], units := "metric" } ∧
    LoadUserData (.avail (some .junk)) = (.error .decodeError, .avail (some .junk)) ∧
    LoadUserData .openBroken = (.error .openError, .openBroken) :=
  ⟨rfl, rfl, rfl, rfl⟩

/-- C7: fetching current weather or forecast for the empty city fails with
`CityRequired` and issues no outbound call: the trace is empty whatever the
environment would answer, so neither the geocode service nor the weather
service is contacted. -/
theorem empty_city_no_outbound_call (cfg : WeatherConfig)
    (geoWire : WireResult (List (Rat × Rat)))
    (wWireC : WireResult CurrentWeather) (wWireF : WireResult Forecast) :
    GetCurrentWeatherByCity cfg geoWire wWireC "" = (.error .cityRequired, []) ∧
    GetForecastByCity cfg geoWire wWireF "" = (.error .cityRequired, []) :=
  ⟨rfl, rfl⟩

/-- C8: for a non-empty city whose geocode URL validates, the geocode
resolver fails with `NoResultsForCity` exactly when the response body does
not decode or decodes to an empty result list; in that case the trace holds
only the geocode call, so the weather service is never contacted; otherwise
the first entry's (latitude, longitude) is returned and the weather request
targets the weather template formatted with latitude then longitude in that
order. -/
theorem geocode_no_results_semantics {β : Type} (geoTmpl wTmpl city gv : String)
    (geoWire : WireResult (List (Rat × Rat))) (wWire : WireResult β)
    (hcity : city ≠ "")
    (hv : validateURL (sprintf1 geoTmpl (queryEscape city)) = .ok gv) :
    ((getGeocode geoTmpl geoWire city).1 = .error .noResultsForCity ↔
      (geoWire = .ok none ∨ geoWire = .ok (some []))) ∧
    ((geoWire = .ok none ∨ geoWire = .ok (some [])) →
      getWeatherData geoTmpl wTmpl geoWire wWire city =
        (.error .noResultsForCity, [.call gv])) ∧
    (∀ (lat lon : Rat) (rs : List (Rat × Rat)),
      geoWire = .ok (some ((lat, lon) :: rs)) →
        (getGeocode geoTmpl geoWire city).1 = .ok (lat, lon) ∧
        (getWeatherData geoTmpl wTmpl geoWire wWire city).2 =
          .call gv :: (doRequest (sprintf2 wTmpl (fmtFloat lat) (fmtFloat lon)) wWire).2) := by
  refine ⟨?_, ?_, ?_⟩
  · cases geoWire with
    | transportFail => simp [getGeocode, doRequest, hv]
    | ok body =>
      match body with
      | none => simp [getGeocode, doRequest, hv]
      | some [] => simp [getGeocode, doRequest, hv]
      | some (r :: rs) => simp [getGeocode, doRequest, hv]
  · rintro (hgw | hgw) <;> subst hgw <;>
      simp [getWeatherData, if_neg hcity, getGeocode, doRequest, hv]
  · intro lat lon rs hgw
    subst hgw
    have hg : getGeocode geoTmpl (.ok (some ((lat, lon) :: rs))) city =
        (.ok (lat, lon), [.call gv]) := by
      simp [getGeocode, doRequest, hv]
    constructor
    · rw [hg]
    · simp only [getWeatherData, if_neg hcity, hg]
      rcases hW : doRequest (sprintf2 wTmpl (fmtFloat lat) (fmtFloat lon)) wWire
        with ⟨res, tr2⟩
      match res with
      | .error e => simp
      | .ok none => simp
      | .ok (some b) => simp

/-- C8 witness: with a decoded geocode list whose first entry is
`(44, -63)`, the resolver returns that coordinate and the weather request
targets the template formatted with latitude `44` then longitude `-63`. -/
theorem geocode_no_results_semantics_witness :
    (getGeocode "https://geo.example/search?name=%s&count=1"
        (.ok (some [((44 : Rat), (-63 : Rat))])) "Halifax").1 = .ok (44, -63) ∧
    (getWeatherData "https://geo.example/search?name=%s&count=1"
        "https://wx.example/v1?latitude=%f&longitude=%f"
        (.ok (some [((44 : Rat), (-63 : Rat))]))
        (WireResult.ok (some ({ temperature := 5, windspeed := 10 } : CurrentWeather)))
        "Halifax").2 =
      .call "https://geo.example/search?name=Halifax&count=1" ::
        (doRequest
          (sprintf2 "https://wx.example/v1?latitude=%f&longitude=%f"
            (fmtFloat 44) (fmtFloat (-63)))
          (WireResult.ok (some ({ temperature := 5, windspeed := 10 } : CurrentWeather)))).2 :=
  (geocode_no_results_semantics "https://geo.example/search?name=%s&count=1"
    "https://wx.example/v1?latitude=%f&longitude=%f" "Halifax"
    "https://geo.example/search?name=Halifax&count=1"
    (.ok (some [((44 : Rat), (-63 : Rat))]))
    (WireResult.ok (some ({ temperature := 5, windspeed := 10 } : CurrentWeather)))
    (by decide) (by decide)).2.2 44 (-63) [] rfl

/-- Computation rule: a parse failure makes the validator reject. -/
theorem validateURL_parse_error (raw : String) (e : URLParseErr)
    (hp : parseURL raw = .error e) : validateURL raw = .error .invalidURL := by
  unfold validateURL
  rw [hp]

/-- Computation rule: on a parsed URL the validator checks the scheme and
host. -/
theorem validateURL_parse_ok (raw : String) (u : GoURL)
    (hp : parseURL raw = .ok u) :
    validateURL raw =
      if u.scheme ≠ "https" ∨ u.host = "" then .error .invalidURL else .ok u.toStr := by
  unfold validateURL
  rw [hp]

/-- C9: the URL validator succeeds exactly when the string parses as a URL
with scheme `https` and a non-empty host, every failure is `InvalidURL`,
and the request executor invokes the validator first and fails fast with
`InvalidURL`, issuing no request, when it rejects; concrete secure URLs are
accepted, insecure or hostless or unparsable strings rejected. -/
theorem validate_url_contract {β : Type} (wire : WireResult β) :
    (∀ raw, (∃ v, validateURL raw = .ok v) ↔
      (∃ u, parseURL raw = .ok u ∧ u.scheme = "https" ∧ u.host ≠ "")) ∧
    (∀ raw e, validateURL raw = .error e → e = .invalidURL) ∧
    (∀ raw, (∀ v, validateURL raw ≠ .ok v) →
      doRequest raw wire = (.error .invalidURL, [])) ∧
    validateURL "https://api.example.com/v1/data?x=1" =
      .ok "https://api.example.com/v1/data?x=1" ∧
    validateURL "http://api.example.com/v1" = .error .invalidURL ∧
    validateURL "https://" = .error .invalidURL ∧
    validateURL "not a url" = .error .invalidURL := by
  refine ⟨?_, ?_, ?_, by decide, by decide, by decide, by decide⟩
  · intro raw
    cases hp : parseURL raw with
    | error e =>
      rw [validateURL_parse_error raw e hp]
      simp
    | ok u =>
      rw [validateURL_parse_ok raw u hp]
      by_cases hcond : u.scheme ≠ "https" ∨ u.host = ""
      · rw [if_pos hcond]
        constructor
        · rintro ⟨v, hv⟩
          cases hv
        · rintro ⟨u', hu', hs, hh⟩
          cases hu'
          rcases hcond with hc | hc
          · exact absurd hs hc
          · exact absurd hc hh
      · rw [if_neg hcond]
        push_neg at hcond
        exact ⟨fun _ => ⟨u, rfl, hcond.1, hcond.2⟩, fun _ => ⟨u.toStr, rfl⟩⟩
  · intro raw e h
    cases hp : parseURL raw with
    | error e' =>
      rw [validateURL_parse_error raw e' hp] at h
      injection h with h1
      exact h1.symm
    | ok u =>
      rw [validateURL_parse_ok raw u hp] at h
      by_cases hcond : u.scheme ≠ "https" ∨ u.host = ""
      · rw [if_pos hcond] at h
        injection h with h1
        exact h1.symm
      · rw [if_neg hcond] at h
        cases h
  · intro raw hno
    unfold doRequest
    cases hv : validateURL raw with
    | error e => rfl
    | ok v => exact absurd hv (hno v)

/-- C9 witness: the validator's success condition instantiated at a
concrete accepted URL, and the executor's fail-fast behavior at a concrete
rejected URL. -/
theorem validate_url_contract_witness :
    (∃ v, validateURL "https://api.example.com/v1/data?x=1" = .ok v) ∧
    doRequest "http://api.example.com/v1"
        (WireResult.ok (some (0 : Rat))) = (.error .invalidURL, []) := by
  have h := validate_url_contract (WireResult.ok (some (0 : Rat)))
  refine ⟨(h.1 "https://api.example.com/v1/data?x=1").2 ?_, h.2.2.1 "http://api.example.com/v1" ?_⟩
  · exact ⟨{ scheme := "https", hasAuthority := true, userinfo := none,
             host := "api.example.com", path := "/v1/data",
             query := some "x=1", fragment := none }, by decide, rfl, by decide⟩
  · intro v hv
    have hbad : validateURL "http://api.example.com/v1" = .error .invalidURL := by decide
    rw [hbad] at hv
    cases hv

/-- C10: a non-empty raw input all of whose comma-separated pieces trim to
empty is not rejected with `CityRequired` by `AddCities` or `DeleteCities`:
every piece is discarded, the operation succeeds, and the unchanged
document is re-saved wholesale. -/
theorem blank_candidates_resave_unchanged (raw : String) (m : Medium) (ud : UserData)
    (hraw : raw ≠ "") (hcand : specCandidates raw = [])
    (hload : (LoadUserData m).1 = .ok ud) :
    AddCity raw m = (.ok ud, .avail (some (.doc ud)), [.load, .save ud]) ∧
    DeleteCity raw m = (.ok ud.cities, .avail (some (.doc ud)), [.load, .save ud]) := by
  have hcand2 : ((splitOnStr raw ",").map trimSpace).filter (fun c => c != "") = [] := hcand
  have hadd : addCityFold ud.cities (splitOnStr raw ",") = ud.cities := by
    rw [addCityFold_eq_spec, hcand2]
    rfl
  have hdel : deleteCityFold ud.cities (splitOnStr raw ",") = ud.cities := by
    rw [deleteCityFold_eq_spec, hcand2]
    rfl
  constructor
  · rw [addCity_eq raw m ud hraw hload, hadd]
  · rw [deleteCity_eq raw m ud hraw hload, hdel]

/-- C10 witness: the raw input `" , "` (both pieces trim to empty) succeeds
on a stored document and re-saves it unchanged. -/
theorem blank_candidates_resave_unchanged_witness :
    AddCity " , " (.avail (some (.doc { cities := ["Halifax"], units := "metric" }))) =
      (.ok { cities := ["Halifax"], units := "metric" },
       .avail (some (.doc { cities := ["Halifax"], units := "metric" })),
       [.load, .save { cities := ["Halifax"], units := "metric" }]) :=
  (blank_candidates_resave_unchanged " , "
    (.avail (some (.doc { cities := ["Halifax"], units := "metric" })))
    { cities := ["Halifax"], units := "metric" }
    (by decide) (by decide) (by decide)).1

end RestWeather
